import Mathlib

/-!
A verification development for the analytics core of a usage-dashboard
application (files `src/analytics/{processor,calculator,aggregator,models}.rs`).

Modelling conventions:
* JSON values (`serde_json::Value`) are embedded as the inductive `Json`;
  the external JSON string parser is not modelled, so a file is a list of
  already-parsed `Json` lines (unparseable and blank lines are skipped by the
  scanner with no effect on any state, so they are omitted from the model).
* `f64` arithmetic is idealized as exact rational (`ℚ`) arithmetic.
* Machine integers: `u32`/`u64`/`usize` are `Nat`; the single narrowing cast
  in the source (`as u32`) is modelled explicitly by `% 2 ^ 32`.
* The external `chrono` timestamp parser and date formatter are modelled by
  the executable stand-ins `parse_timestamp` / `format_date`; no claim
  depends on the concrete calendar semantics, only on parse success/failure
  and on the grouping key being a function of the timestamp.
* `HashSet<String>` is modelled as a `List String` observed only through
  membership; `HashMap<String, T>` is modelled as an association list in
  insertion order (`updateAssoc` is `entry().or_insert_with()` + update).
-/

/-- Shallow embedding of `serde_json::Value`. -/
inductive Json where
  | null : Json
  | bool (b : Bool) : Json
  | num (q : ℚ) : Json
  | str (s : String) : Json
  | arr (elems : List Json) : Json
  | obj (fields : List (String × Json)) : Json

/-- Field lookup inside an object's field list (`serde_json::Map` lookup). -/
def lookupField : List (String × Json) → String → Option Json
  | [], _ => none
  | (k, v) :: rest, key => if k = key then some v else lookupField rest key

/-- `Value::get(key)`: `Some` only on objects that carry the key. -/
def jget : Json → String → Option Json
  | .obj fields, key => lookupField fields key
  | _, _ => none

/-- `Value::as_str()`. -/
def Json.asStr : Json → Option String
  | .str s => some s
  | _ => none

/-- `Value::as_u64()`: defined on numbers that are non-negative integers
fitting in 64 bits. -/
def Json.asU64 : Json → Option Nat
  | .num q => if q.den = 1 ∧ 0 ≤ q.num ∧ q.num < 2 ^ 64 then some q.num.toNat else none
  | _ => none

/-- `Value::as_f64()`: any number (idealized as exact). -/
def Json.asF64 : Json → Option ℚ
  | .num q => some q
  | _ => none

/-- `Value::is_null()`. -/
def Json.isNull : Json → Bool
  | .null => true
  | _ => false

/-- The `as u32` narrowing cast applied to a u64 value. -/
def u32cast (n : Nat) : Nat := n % 2 ^ 32

/-- Numeric value of a list of decimal digits (most significant first). -/
def digitsVal (cs : List Char) : Nat :=
  cs.foldl (fun n c => 10 * n + (c.toNat - Char.toNat '0')) 0

/-- Stand-in for the external `chrono` RFC3339 parser
(`DateTime::parse_from_rfc3339`): an instant is modelled as an `Int` and a
timestamp string parses exactly when it is a non-empty string of decimal
digits.  The claims under verification depend only on the parser being a
partial function that can succeed or fail, never on calendar arithmetic. -/
def parse_timestamp (s : String) : Option Int :=
  if s.toList ≠ [] ∧ s.toList.all (fun c => c.isDigit) then
    some (digitsVal s.toList)
  else
    none

/-- Stand-in for the external `chrono` date formatter
(`timestamp.format("%Y-%m-%d")`): any injective function of the instant
serves the claims, which never inspect the text of the key. -/
def format_date (t : Int) : String := toString t

/-- `needle` is a prefix of `hay` (over characters). -/
def listPrefixEq : List Char → List Char → Bool
  | [], _ => true
  | _ :: _, [] => false
  | c :: cs, d :: ds => c = d && listPrefixEq cs ds

/-- `needle` occurs as a contiguous run inside `hay`. -/
def listContainsSeq (needle : List Char) : List Char → Bool
  | [] => listPrefixEq needle []
  | c :: cs => listPrefixEq needle (c :: cs) || listContainsSeq needle cs

/-- Rust `str::contains(pattern)` (substring containment). -/
def strContainsStr (hay pat : String) : Bool :=
  listContainsSeq pat.toList hay.toList

/-- Rust `str::split(sep)` semantics: keeps empty segments, and an empty
input yields one empty segment. -/
def splitCharAux (sep : Char) : List Char → List Char → List String
  | [], acc => [String.mk acc.reverse]
  | c :: cs, acc =>
    if c = sep then String.mk acc.reverse :: splitCharAux sep cs []
    else splitCharAux sep cs (c :: acc)

/-- Split a string on a separator character (Rust `str::split`). -/
def splitOnChar (sep : Char) (s : String) : List String :=
  splitCharAux sep s.toList []

/-- `ModelPricing` (calculator.rs): the four per-million-token rates. -/
structure ModelPricing where
  input_price : ℚ
  output_price : ℚ
  cache_read_price : ℚ
  cache_write_price : ℚ
deriving DecidableEq

/-- `CostCalculator::get_model_pricing` (calculator.rs, lines 29-55). -/
def get_model_pricing (model : String) : ModelPricing :=
  if strContainsStr model "opus-4" || strContainsStr model "claude-opus-4" then
    { input_price := 15, output_price := 75,
      cache_read_price := 3 / 2, cache_write_price := 75 / 4 }
  else if strContainsStr model "sonnet-4" || strContainsStr model "claude-sonnet-4" then
    { input_price := 3, output_price := 15,
      cache_read_price := 3 / 10, cache_write_price := 15 / 4 }
  else
    { input_price := 0, output_price := 0,
      cache_read_price := 0, cache_write_price := 0 }

/-- `CostCalculator::calculate_cost` (calculator.rs, lines 10-26). -/
def calculate_cost (model : String)
    (input_tokens output_tokens cache_read_tokens cache_creation_tokens : Nat) : ℚ :=
  let pricing := get_model_pricing model
  let input_cost := ((input_tokens : ℚ) / 1000000) * pricing.input_price
  let output_cost := ((output_tokens : ℚ) / 1000000) * pricing.output_price
  let cache_read_cost := ((cache_read_tokens : ℚ) / 1000000) * pricing.cache_read_price
  let cache_write_cost := ((cache_creation_tokens : ℚ) / 1000000) * pricing.cache_write_price
  input_cost + output_cost + cache_read_cost + cache_write_cost

/-- `CostCalculator::get_model_display_name` (calculator.rs, lines 58-67). -/
def get_model_display_name (model : String) : String :=
  if strContainsStr model "opus-4" || strContainsStr model "claude-opus-4" then
    "Opus 4"
  else if strContainsStr model "sonnet-4" || strContainsStr model "claude-sonnet-4" then
    "Sonnet 4"
  else
    model

/-- `UsageEntry` (models.rs, lines 6-17). -/
structure UsageEntry where
  timestamp : Int
  model : String
  project_path : Option String
  session_id : Option String
  request_id : Option String
  input_tokens : Nat
  output_tokens : Nat
  cache_read_tokens : Nat
  cache_creation_tokens : Nat
  cost : ℚ
deriving DecidableEq

/-- The composite deduplication key `format!("{}:{}", msg_id, req_id)`. -/
def dedup_key (msg_id req_id : String) : String := msg_id ++ ":" ++ req_id

/-- `UsageProcessor::process_line` (processor.rs, lines 128-206).
Returns the optional kept entry together with the updated local and global
deduplication sets (the source mutates the two `HashSet`s in place). -/
def process_line (j : Json) (session_id : Option String)
    (localDedup globalDedup : List String) :
    Except String (Option UsageEntry × List String × List String) :=
  match (jget j "timestamp").bind Json.asStr with
  | none => .error "Missing or invalid timestamp"
  | some ts_str =>
    match parse_timestamp ts_str with
    | none => .error "Failed to parse timestamp"
    | some timestamp =>
      match jget j "message" with
      | none => .error "Missing message field"
      | some message =>
        match jget message "usage" with
        | none => .ok (none, localDedup, globalDedup)
        | some usage =>
          if usage.isNull then .ok (none, localDedup, globalDedup)
          else
            let message_id := (jget message "id").bind Json.asStr
            let request_id := (jget j "requestId").bind Json.asStr
            let finish := fun (localD globalD : List String) =>
              let input_tokens := u32cast (((jget usage "input_tokens").bind Json.asU64).getD 0)
              let output_tokens := u32cast (((jget usage "output_tokens").bind Json.asU64).getD 0)
              let cache_read_tokens := u32cast (((jget usage "cache_read_input_tokens").bind Json.asU64).getD 0)
              let cache_creation_tokens := u32cast (((jget usage "cache_creation_input_tokens").bind Json.asU64).getD 0)
              if input_tokens = 0 ∧ output_tokens = 0 ∧ cache_read_tokens = 0 ∧ cache_creation_tokens = 0 then
                .ok (none, localD, globalD)
              else
                let model := ((jget message "model").bind Json.asStr).getD "unknown"
                let project_path := (jget j "cwd").bind Json.asStr
                let cost := ((jget j "costUSD").bind Json.asF64).getD
                  (calculate_cost model input_tokens output_tokens cache_read_tokens cache_creation_tokens)
                .ok (some { timestamp := timestamp, model := model,
                            project_path := project_path, session_id := session_id,
                            request_id := request_id,
                            input_tokens := input_tokens, output_tokens := output_tokens,
                            cache_read_tokens := cache_read_tokens,
                            cache_creation_tokens := cache_creation_tokens,
                            cost := cost }, localD, globalD)
            match message_id, request_id with
            | some msg_id, some req_id =>
              let key := dedup_key msg_id req_id
              if key ∈ localDedup ∨ key ∈ globalDedup then
                .ok (none, localDedup, globalDedup)
              else
                finish (key :: localDedup) (key :: globalDedup)
            | _, _ => finish localDedup globalDedup

/-- One step of the per-line loop of `process_file` (processor.rs,
lines 109-122): a kept entry is appended, a skipped line leaves the entry
list alone, an erroring line is logged and skipped with no state change. -/
def process_file_step (session_id : Option String)
    (acc : List UsageEntry × List String × List String) (j : Json) :
    List UsageEntry × List String × List String :=
  match process_line j session_id acc.2.1 acc.2.2 with
  | .ok (some e, l, g) => (acc.1 ++ [e], l, g)
  | .ok (none, l, g) => (acc.1, l, g)
  | .error _ => acc

/-- `UsageProcessor::process_file` (processor.rs, lines 95-125): fresh local
set, threaded global set.  The session id is derived from the file path in
the source (external path API) and is taken here as a parameter. -/
def process_file (file : List Json) (session_id : Option String)
    (globalDedup : List String) : List UsageEntry × List String :=
  let r := file.foldl (process_file_step session_id) ([], [], globalDedup)
  (r.1, r.2.2)

/-- `ModelStats` (models.rs, lines 62-72). -/
structure ModelStats where
  model : String
  display_name : String
  total_cost : ℚ
  total_tokens : Nat
  input_tokens : Nat
  output_tokens : Nat
  cache_read_tokens : Nat
  cache_creation_tokens : Nat
  request_count : Nat
deriving DecidableEq

/-- `ProjectStats` (models.rs, lines 76-88). -/
structure ProjectStats where
  project_name : String
  project_path : String
  total_cost : ℚ
  total_tokens : Nat
  input_tokens : Nat
  output_tokens : Nat
  cache_read_tokens : Nat
  cache_creation_tokens : Nat
  request_count : Nat
  session_count : Nat
  last_used : Int
deriving DecidableEq

/-- `SessionStats` (models.rs, lines 92-104). -/
structure SessionStats where
  session_id : String
  project_path : String
  total_cost : ℚ
  total_tokens : Nat
  input_tokens : Nat
  output_tokens : Nat
  cache_read_tokens : Nat
  cache_creation_tokens : Nat
  request_count : Nat
  timestamp : Int
deriving DecidableEq

/-- `DailyUsage` (models.rs, lines 108-118). -/
structure DailyUsage where
  date : String
  total_cost : ℚ
  total_tokens : Nat
  input_tokens : Nat
  output_tokens : Nat
  cache_read_tokens : Nat
  cache_creation_tokens : Nat
  request_count : Nat
  models_used : List String
deriving DecidableEq

/-- `HashMap::entry(key).or_insert_with(init)` followed by an update `f` of
the row at `key`: the association-list model of one loop iteration of the
aggregator folds. -/
def updateAssoc {β : Type} (key : String) (init : β) (f : β → β) :
    List (String × β) → List (String × β)
  | [] => [(key, f init)]
  | (k, v) :: rest =>
    if k = key then (k, f v) :: rest else (k, v) :: updateAssoc key init f rest

/-- `HashMap::into_values()` of the association-list model. -/
def valuesOf {β : Type} (m : List (String × β)) : List β := m.map Prod.snd

/-- `HashMap::insert` (replace an existing key or add a new one). -/
def insertReplace {β : Type} (key : String) (v : β) :
    List (String × β) → List (String × β)
  | [] => [(key, v)]
  | (k, w) :: rest =>
    if k = key then (key, v) :: rest else (k, w) :: insertReplace key v rest

/-- `UsageAggregator::extract_project_name` (aggregator.rs, lines 327-354).
The source loop guard `i + 1 < components.len()` can only fail at the final
component, after which the loop ends; the two-element match below is that
loop. -/
def afterMarkerScan (markers : List String) : List String → Option String
  | c :: next :: rest =>
    if markers.contains c then some next else afterMarkerScan markers (next :: rest)
  | _ => none

/-- The fixed marker list of `extract_project_name`. -/
def project_markers : List String :=
  ["Github", "github", "Projects", "projects", "code", "Code", "dev", "Development", "src", "repos"]

/-- The fixed "boring subdirectory" list of `extract_project_name`. -/
def common_subdirs : List String :=
  ["src", "scripts", "lib", "bin", "dist", "build", "out", "target"]

/-- `UsageAggregator::extract_project_name` (aggregator.rs, lines 327-354). -/
def extract_project_name (project_path : String) : String :=
  let components := (splitOnChar '/' project_path).filter (fun s => s ≠ "")
  match afterMarkerScan project_markers components with
  | some name => name
  | none =>
    match components.reverse.find? (fun c => ¬ common_subdirs.contains c) with
    | some name => name
    | none => components.getLast?.getD "Unknown"

/-- Zero-valued `ModelStats` row materialized on first sight of a model
(aggregator.rs, lines 132-144). -/
def init_model_stat (e : UsageEntry) : ModelStats :=
  { model := e.model, display_name := get_model_display_name e.model,
    total_cost := 0, total_tokens := 0, input_tokens := 0, output_tokens := 0,
    cache_read_tokens := 0, cache_creation_tokens := 0, request_count := 0 }

/-- Accumulation of one entry into its `ModelStats` row (aggregator.rs,
lines 146-152); `total_tokens` is recomputed from the updated input and
output sums only. -/
def add_entry_model (e : UsageEntry) (s : ModelStats) : ModelStats :=
  let input_tokens := s.input_tokens + e.input_tokens
  let output_tokens := s.output_tokens + e.output_tokens
  { s with
    total_cost := s.total_cost + e.cost,
    input_tokens := input_tokens, output_tokens := output_tokens,
    cache_read_tokens := s.cache_read_tokens + e.cache_read_tokens,
    cache_creation_tokens := s.cache_creation_tokens + e.cache_creation_tokens,
    total_tokens := input_tokens + output_tokens,
    request_count := s.request_count + 1 }

/-- `UsageAggregator::calculate_model_stats` (aggregator.rs, lines 128-158). -/
def calculate_model_stats (entries : List UsageEntry) : List ModelStats :=
  let m := entries.foldl
    (fun m e => updateAssoc e.model (init_model_stat e) (add_entry_model e) m) []
  (valuesOf m).mergeSort (fun a b => b.total_cost ≤ a.total_cost)

/-- The resolved project key of an entry (aggregator.rs, line 165):
`project_path.clone().unwrap_or_else(|| "Unknown Project")`. -/
def resolved_project_path (e : UsageEntry) : String :=
  e.project_path.getD "Unknown Project"

/-- Zero-valued `ProjectStats` row (aggregator.rs, lines 168-182). -/
def init_project_stat (e : UsageEntry) (project_name project_path : String) : ProjectStats :=
  { project_name := project_name, project_path := project_path,
    total_cost := 0, total_tokens := 0, input_tokens := 0, output_tokens := 0,
    cache_read_tokens := 0, cache_creation_tokens := 0, request_count := 0,
    session_count := 0, last_used := e.timestamp }

/-- Accumulation into a `ProjectStats` row (aggregator.rs, lines 184-194). -/
def add_entry_project (e : UsageEntry) (s : ProjectStats) : ProjectStats :=
  let input_tokens := s.input_tokens + e.input_tokens
  let output_tokens := s.output_tokens + e.output_tokens
  let cache_read_tokens := s.cache_read_tokens + e.cache_read_tokens
  let cache_creation_tokens := s.cache_creation_tokens + e.cache_creation_tokens
  { s with
    total_cost := s.total_cost + e.cost,
    input_tokens := input_tokens, output_tokens := output_tokens,
    cache_read_tokens := cache_read_tokens,
    cache_creation_tokens := cache_creation_tokens,
    total_tokens := input_tokens + output_tokens + cache_read_tokens + cache_creation_tokens,
    request_count := s.request_count + 1,
    last_used := if e.timestamp > s.last_used then e.timestamp else s.last_used }

/-- The second pass of `calculate_project_stats` (aggregator.rs, lines
197-205): distinct `session_id` values among entries whose **literal**
`project_path` field equals the row's key
(`e.project_path.as_ref() == Some(&project_stat.project_path)`). -/
def literal_session_count (entries : List UsageEntry) (path : String) : Nat :=
  (((entries.filter (fun e => e.project_path = some path)).filterMap
    (fun e => e.session_id)).dedup).length

/-- `UsageAggregator::calculate_project_stats` (aggregator.rs, lines 161-210). -/
def calculate_project_stats (entries : List UsageEntry) : List ProjectStats :=
  let m := entries.foldl
    (fun m e =>
      updateAssoc (resolved_project_path e)
        (init_project_stat e (extract_project_name (resolved_project_path e))
          (resolved_project_path e))
        (add_entry_project e) m) []
  let m2 := m.map (fun kv =>
    (kv.1, { kv.2 with session_count := literal_session_count entries kv.2.project_path }))
  (valuesOf m2).mergeSort (fun a b => b.total_cost ≤ a.total_cost)

/-- Zero-valued `SessionStats` row (aggregator.rs, lines 223-236). -/
def init_session_stat (e : UsageEntry) : SessionStats :=
  { session_id := e.session_id.getD "Unknown",
    project_path := e.project_path.getD "Unknown Project",
    total_cost := 0, total_tokens := 0, input_tokens := 0, output_tokens := 0,
    cache_read_tokens := 0, cache_creation_tokens := 0, request_count := 0,
    timestamp := e.timestamp }

/-- Accumulation into a `SessionStats` row (aggregator.rs, lines 238-248). -/
def add_entry_session (e : UsageEntry) (s : SessionStats) : SessionStats :=
  let input_tokens := s.input_tokens + e.input_tokens
  let output_tokens := s.output_tokens + e.output_tokens
  let cache_read_tokens := s.cache_read_tokens + e.cache_read_tokens
  let cache_creation_tokens := s.cache_creation_tokens + e.cache_creation_tokens
  { s with
    total_cost := s.total_cost + e.cost,
    input_tokens := input_tokens, output_tokens := output_tokens,
    cache_read_tokens := cache_read_tokens,
    cache_creation_tokens := cache_creation_tokens,
    total_tokens := input_tokens + output_tokens + cache_read_tokens + cache_creation_tokens,
    request_count := s.request_count + 1,
    timestamp := if e.timestamp > s.timestamp then e.timestamp else s.timestamp }

/-- `UsageAggregator::calculate_session_stats` (aggregator.rs, lines 213-254). -/
def calculate_session_stats (entries : List UsageEntry) : List SessionStats :=
  let m := entries.foldl
    (fun m e =>
      updateAssoc (e.project_path.getD "unknown" ++ ":" ++ e.session_id.getD "unknown")
        (init_session_stat e) (add_entry_session e) m) []
  (valuesOf m).mergeSort (fun a b => b.timestamp ≤ a.timestamp)

/-- Zero-valued `DailyUsage` row (aggregator.rs, lines 263-275). -/
def init_daily_stat (date_key : String) : DailyUsage :=
  { date := date_key, total_cost := 0, total_tokens := 0, input_tokens := 0,
    output_tokens := 0, cache_read_tokens := 0, cache_creation_tokens := 0,
    request_count := 0, models_used := [] }

/-- Accumulation into a `DailyUsage` row (aggregator.rs, lines 277-287). -/
def add_entry_daily (e : UsageEntry) (s : DailyUsage) : DailyUsage :=
  let input_tokens := s.input_tokens + e.input_tokens
  let output_tokens := s.output_tokens + e.output_tokens
  let cache_read_tokens := s.cache_read_tokens + e.cache_read_tokens
  let cache_creation_tokens := s.cache_creation_tokens + e.cache_creation_tokens
  { s with
    total_cost := s.total_cost + e.cost,
    input_tokens := input_tokens, output_tokens := output_tokens,
    cache_read_tokens := cache_read_tokens,
    cache_creation_tokens := cache_creation_tokens,
    total_tokens := input_tokens + output_tokens + cache_read_tokens + cache_creation_tokens,
    request_count := s.request_count + 1,
    models_used := if s.models_used.contains e.model then s.models_used
                   else s.models_used ++ [e.model] }

/-- `UsageAggregator::calculate_daily_usage` (aggregator.rs, lines 257-293). -/
def calculate_daily_usage (entries : List UsageEntry) : List DailyUsage :=
  let m := entries.foldl
    (fun m e =>
      updateAssoc (format_date e.timestamp) (init_daily_stat (format_date e.timestamp))
        (add_entry_daily e) m) []
  (valuesOf m).mergeSort (fun a b => a.date ≤ b.date)

/-- `UsageStats` (models.rs, lines 21-34). -/
structure UsageStats where
  total_cost : ℚ
  total_input_tokens : Nat
  total_output_tokens : Nat
  total_cache_read_tokens : Nat
  total_cache_creation_tokens : Nat
  total_tokens : Nat
  session_count : Nat
  entries : List UsageEntry
  model_stats : List (String × ModelStats)
  project_stats : List (String × ProjectStats)
  session_stats : List (String × SessionStats)
  daily_usage : List (String × DailyUsage)

/-- `UsageStats::new` (models.rs, lines 37-52). -/
def UsageStats.new : UsageStats :=
  { total_cost := 0, total_input_tokens := 0, total_output_tokens := 0,
    total_cache_read_tokens := 0, total_cache_creation_tokens := 0,
    total_tokens := 0, session_count := 0, entries := [],
    model_stats := [], project_stats := [], session_stats := [], daily_usage := [] }

/-- `UsageAggregator::calculate_usage_stats` (aggregator.rs, lines 53-123). -/
def calculate_usage_stats (entries : List UsageEntry) : UsageStats :=
  if entries = [] then UsageStats.new
  else
    let total_cost := (entries.map (fun e => e.cost)).sum
    let total_input_tokens := (entries.map (fun e => e.input_tokens)).sum
    let total_output_tokens := (entries.map (fun e => e.output_tokens)).sum
    let total_cache_read_tokens := (entries.map (fun e => e.cache_read_tokens)).sum
    let total_cache_creation_tokens := (entries.map (fun e => e.cache_creation_tokens)).sum
    let total_tokens := total_input_tokens + total_output_tokens +
      total_cache_read_tokens + total_cache_creation_tokens
    let session_count := ((entries.filterMap (fun e => e.session_id)).dedup).length
    let model_stats_vec := calculate_model_stats entries
    let project_stats_vec := calculate_project_stats entries
    let session_stats_vec := calculate_session_stats entries
    let daily_usage_vec := calculate_daily_usage entries
    let model_stats := model_stats_vec.foldl (fun m s => insertReplace s.model s m) []
    let project_stats := project_stats_vec.foldl (fun m s => insertReplace s.project_path s m) []
    let session_stats := session_stats_vec.foldl (fun m s => insertReplace s.session_id s m) []
    let daily_usage := daily_usage_vec.foldl (fun m s => insertReplace s.date s m) []
    { total_cost := total_cost, total_input_tokens := total_input_tokens,
      total_output_tokens := total_output_tokens,
      total_cache_read_tokens := total_cache_read_tokens,
      total_cache_creation_tokens := total_cache_creation_tokens,
      total_tokens := total_tokens, session_count := session_count,
      entries := entries, model_stats := model_stats,
      project_stats := project_stats, session_stats := session_stats,
      daily_usage := daily_usage }

/-! ## Observation functions

Pure views of the data a line carries, used to state properties of
`process_line` without re-deriving its control flow in each claim. -/

/-- The per-line parse preamble of `process_line`: the parsed timestamp and
the `message` object.  `process_line` errors exactly when this is `none`. -/
def line_meta (j : Json) : Option (Int × Json) :=
  ((jget j "timestamp").bind Json.asStr).bind (fun ts_str =>
    (parse_timestamp ts_str).bind (fun t =>
      (jget j "message").map (fun msg => (t, msg))))

/-- The usage object of a line: present and non-null `message.usage`
(given that the preamble parses). -/
def usage_of (j : Json) : Option Json :=
  (line_meta j).bind (fun tm =>
    (jget tm.2 "usage").bind (fun u => if u.isNull then none else some u))

/-- The composite deduplication key of a line: defined exactly when both
`message.id` and `requestId` are present as strings. -/
def dedup_key_of (j : Json) : Option String :=
  (line_meta j).bind (fun tm =>
    match (jget tm.2 "id").bind Json.asStr, (jget j "requestId").bind Json.asStr with
    | some mid, some rid => some (dedup_key mid rid)
    | _, _ => none)

/-- The four token counts read from a usage object (after the `as u32`
narrowing), in source order: input, output, cache-read, cache-creation. -/
def tokens_of (u : Json) : Nat × Nat × Nat × Nat :=
  (u32cast (((jget u "input_tokens").bind Json.asU64).getD 0),
   u32cast (((jget u "output_tokens").bind Json.asU64).getD 0),
   u32cast (((jget u "cache_read_input_tokens").bind Json.asU64).getD 0),
   u32cast (((jget u "cache_creation_input_tokens").bind Json.asU64).getD 0))

/-- All four token counts of a usage object are zero. -/
def zero_usage (u : Json) : Prop :=
  (tokens_of u).1 = 0 ∧ (tokens_of u).2.1 = 0 ∧ (tokens_of u).2.2.1 = 0 ∧ (tokens_of u).2.2.2 = 0

instance (u : Json) : Decidable (zero_usage u) := by unfold zero_usage; infer_instance

/-- The record extracted by the tail of `process_line` (after the
deduplication step): `none` exactly on all-zero token counts. -/
def entry_from (j : Json) (t : Int) (msg u : Json) (sid : Option String) : Option UsageEntry :=
  let tk := tokens_of u
  if tk.1 = 0 ∧ tk.2.1 = 0 ∧ tk.2.2.1 = 0 ∧ tk.2.2.2 = 0 then none
  else
    let model := ((jget msg "model").bind Json.asStr).getD "unknown"
    some { timestamp := t, model := model,
           project_path := (jget j "cwd").bind Json.asStr,
           session_id := sid,
           request_id := (jget j "requestId").bind Json.asStr,
           input_tokens := tk.1, output_tokens := tk.2.1,
           cache_read_tokens := tk.2.2.1, cache_creation_tokens := tk.2.2.2,
           cost := ((jget j "costUSD").bind Json.asF64).getD
             (calculate_cost model tk.1 tk.2.1 tk.2.2.1 tk.2.2.2) }

/-- The record a line would yield, ignoring deduplication. -/
def extracted_entry (j : Json) (sid : Option String) : Option UsageEntry :=
  (line_meta j).bind (fun tm =>
    (usage_of j).bind (fun u => entry_from j tm.1 tm.2 u sid))

/-- A line that would be kept (nonzero usage) but carries no deduplication
key: the only kind of line the deduplicator can never suppress. -/
def keyless_kept (j : Json) : Bool :=
  match usage_of j, dedup_key_of j with
  | some u, none => decide (¬ zero_usage u)
  | _, _ => false


/-! ## The claim-side description of `extract_project_name` (C7) -/

/-- The project-name algorithm exactly as the specification words it: the
component immediately after the first marker (when one is followed by a
component), else the rightmost non-boring component, else the last
component, else `"Unknown"`. -/
def spec_project_name (path : String) : String :=
  let components := (splitOnChar '/' path).filter (fun s => s ≠ "")
  let i := components.findIdx (fun c => project_markers.contains c)
  if h : i + 1 < components.length then components.get ⟨i + 1, h⟩
  else
    match components.reverse.find? (fun c => ¬ common_subdirs.contains c) with
    | some name => name
    | none => components.getLast?.getD "Unknown"


/-! ## Remaining claim-side definitions -/

/-- Distinct `session_id` count among entries whose **resolved** project path
(`project_path` with absence collapsed to `"Unknown Project"`) equals `path`
— the counting rule as the specification words it. -/
def resolved_session_count (entries : List UsageEntry) (path : String) : Nat :=
  (((entries.filter (fun e => resolved_project_path e = path)).filterMap
    (fun e => e.session_id)).dedup).length

/-- A line with both dedup ids and all-zero usage. -/
def jline_zero_keyed : Json :=
  .obj [("timestamp", .str "0"),
        ("message", .obj [("id", .str "m"),
                          ("usage", .obj [("input_tokens", .num 0)])]),
        ("requestId", .str "r")]

/-- A line with the same dedup pair as `jline_zero_keyed` but nonzero usage. -/
def jline_nonzero_keyed : Json :=
  .obj [("timestamp", .str "0"),
        ("message", .obj [("id", .str "m"),
                          ("usage", .obj [("input_tokens", .num 1)])]),
        ("requestId", .str "r"),
        ("costUSD", .num 7)]

/-- A keyed line with pair (`m1`, `r1`), nonzero usage, explicit cost. -/
def jline_keyed1 : Json :=
  .obj [("timestamp", .str "0"),
        ("message", .obj [("id", .str "m1"),
                          ("usage", .obj [("input_tokens", .num 1)])]),
        ("requestId", .str "r1"),
        ("costUSD", .num 7)]

/-- A keyed line with the distinct pair (`m2`, `r2`). -/
def jline_keyed2 : Json :=
  .obj [("timestamp", .str "0"),
        ("message", .obj [("id", .str "m2"),
                          ("usage", .obj [("input_tokens", .num 1)])]),
        ("requestId", .str "r2"),
        ("costUSD", .num 7)]

/-- A line with nonzero usage but no dedup ids at all. -/
def jline_keyless : Json :=
  .obj [("timestamp", .str "0"),
        ("message", .obj [("usage", .obj [("input_tokens", .num 1)])]),
        ("costUSD", .num 7)]

/-- The record `jline_keyed1` extracts to. -/
def entry_keyed1 : UsageEntry :=
  { timestamp := 0, model := "unknown", project_path := none, session_id := none,
    request_id := some "r1", input_tokens := 1, output_tokens := 0,
    cache_read_tokens := 0, cache_creation_tokens := 0, cost := 7 }

/-- The record `jline_keyed2` extracts to. -/
def entry_keyed2 : UsageEntry :=
  { timestamp := 0, model := "unknown", project_path := none, session_id := none,
    request_id := some "r2", input_tokens := 1, output_tokens := 0,
    cache_read_tokens := 0, cache_creation_tokens := 0, cost := 7 }

/-- The record `jline_keyless` extracts to. -/
def entry_keyless : UsageEntry :=
  { timestamp := 0, model := "unknown", project_path := none, session_id := none,
    request_id := none, input_tokens := 1, output_tokens := 0,
    cache_read_tokens := 0, cache_creation_tokens := 0, cost := 7 }

/-- A record with no project path and a session id. -/
def entry_no_path : UsageEntry :=
  { timestamp := 0, model := "m", project_path := none, session_id := some "s1",
    request_id := none, input_tokens := 1, output_tokens := 0,
    cache_read_tokens := 0, cache_creation_tokens := 0, cost := 0 }

/-- A record with a present project path and a session id. -/
def entry_with_path : UsageEntry :=
  { timestamp := 0, model := "m", project_path := some "/a/b",
    session_id := some "s1", request_id := none, input_tokens := 1,
    output_tokens := 0, cache_read_tokens := 0, cache_creation_tokens := 0,
    cost := 0 }


/-! ## Characterization of `process_line` -/

theorem line_meta_elim {j : Json} {t : Int} {msg : Json}
    (h : line_meta j = some (t, msg)) :
    ∃ ts_str, (jget j "timestamp").bind Json.asStr = some ts_str ∧
      parse_timestamp ts_str = some t ∧ jget j "message" = some msg := by
  unfold line_meta at h
  cases h1 : (jget j "timestamp").bind Json.asStr with
  | none => rw [h1] at h; simp at h
  | some ts =>
    rw [h1] at h
    simp only [Option.some_bind] at h
    cases h2 : parse_timestamp ts with
    | none => rw [h2] at h; simp at h
    | some t' =>
      rw [h2] at h
      simp only [Option.some_bind] at h
      cases h3 : jget j "message" with
      | none => rw [h3] at h; simp at h
      | some msg' =>
        rw [h3] at h
        simp only [Option.map_some', Option.some.injEq, Prod.mk.injEq] at h
        obtain ⟨rfl, rfl⟩ := h
        exact ⟨ts, rfl, h2, rfl⟩

theorem usage_of_elim {j : Json} {u : Json} (h : usage_of j = some u) :
    ∃ t msg, line_meta j = some (t, msg) ∧ jget msg "usage" = some u ∧
      u.isNull = false := by
  unfold usage_of at h
  cases hm : line_meta j with
  | none => rw [hm] at h; simp at h
  | some tm =>
    obtain ⟨t, msg⟩ := tm
    rw [hm] at h
    simp only [Option.some_bind] at h
    cases h2 : jget msg "usage" with
    | none => rw [h2] at h; simp at h
    | some u0 =>
      rw [h2] at h
      simp only [Option.some_bind] at h
      cases hn : u0.isNull with
      | true => rw [hn] at h; simp at h
      | false =>
        rw [hn] at h
        simp only [Bool.false_eq_true, if_false, Option.some.injEq] at h
        subst h
        exact ⟨t, msg, rfl, h2, hn⟩

theorem process_line_of_meta_none {j : Json} (sid : Option String)
    (l g : List String) (h : line_meta j = none) :
    ∃ s, process_line j sid l g = .error s := by
  unfold process_line
  cases h1 : (jget j "timestamp").bind Json.asStr with
  | none => exact ⟨"Missing or invalid timestamp", by simp⟩
  | some ts =>
    cases h2 : parse_timestamp ts with
    | none => exact ⟨"Failed to parse timestamp", by simp [h2]⟩
    | some t =>
      cases h3 : jget j "message" with
      | none => exact ⟨"Missing message field", by simp [h2, h3]⟩
      | some msg =>
        exfalso
        unfold line_meta at h
        rw [h1] at h
        simp [h2, h3] at h

theorem ok_ite {c : Prop} [Decidable c] (a b : Option UsageEntry) (l g : List String) :
    (if c then Except.ok (ε := String) (a, l, g) else Except.ok (b, l, g)) =
      Except.ok (if c then a else b, l, g) := by
  split <;> rfl

theorem process_line_usage_some {j : Json} {t : Int} {msg u : Json}
    (sid : Option String) (l g : List String)
    (hm : line_meta j = some (t, msg)) (hu : jget msg "usage" = some u)
    (hn : u.isNull = false) :
    process_line j sid l g =
      match (jget msg "id").bind Json.asStr, (jget j "requestId").bind Json.asStr with
      | some mid, some rid =>
        if dedup_key mid rid ∈ l ∨ dedup_key mid rid ∈ g then .ok (none, l, g)
        else .ok (entry_from j t msg u sid, dedup_key mid rid :: l, dedup_key mid rid :: g)
      | _, _ => .ok (entry_from j t msg u sid, l, g) := by
  obtain ⟨ts, h1, h2, h3⟩ := line_meta_elim hm
  unfold process_line
  rw [h1]
  simp only [h2, h3, hu, hn, Bool.false_eq_true, if_false]
  cases hmid : (jget msg "id").bind Json.asStr with
  | none =>
    simp only [entry_from, tokens_of]
    rw [ok_ite]
  | some mid =>
    cases hrid : (jget j "requestId").bind Json.asStr with
    | none =>
      simp only [entry_from, tokens_of, hrid]
      rw [ok_ite]
    | some rid =>
      by_cases hmem : dedup_key mid rid ∈ l ∨ dedup_key mid rid ∈ g
      · simp only [dedup_key] at hmem
        simp only [hmem, if_true, dedup_key]
      · simp only [dedup_key] at hmem
        simp only [hmem, if_false, dedup_key, entry_from, tokens_of, hrid]
        rw [ok_ite]

theorem dedup_key_of_eq {j : Json} {t : Int} {msg : Json}
    (hm : line_meta j = some (t, msg)) :
    dedup_key_of j =
      match (jget msg "id").bind Json.asStr, (jget j "requestId").bind Json.asStr with
      | some mid, some rid => some (dedup_key mid rid)
      | _, _ => none := by
  unfold dedup_key_of
  rw [hm]
  simp only [Option.some_bind]

theorem extracted_entry_eq {j : Json} {t : Int} {msg u : Json} (sid : Option String)
    (hm : line_meta j = some (t, msg)) (hu : usage_of j = some u) :
    extracted_entry j sid = entry_from j t msg u sid := by
  unfold extracted_entry
  rw [hm, hu]
  simp only [Option.some_bind]

theorem process_line_of_usage_none {j : Json} {t : Int} {msg : Json}
    (sid : Option String) (l g : List String)
    (hm : line_meta j = some (t, msg)) (hu : usage_of j = none) :
    process_line j sid l g = .ok (none, l, g) := by
  obtain ⟨ts, h1, h2, h3⟩ := line_meta_elim hm
  unfold usage_of at hu
  rw [hm] at hu
  simp only [Option.some_bind] at hu
  unfold process_line
  rw [h1]
  cases h4 : jget msg "usage" with
  | none => simp [h2, h3, h4]
  | some u0 =>
    rw [h4] at hu
    simp only [Option.some_bind] at hu
    cases hn : u0.isNull with
    | true => simp [h2, h3, h4, hn]
    | false => rw [hn] at hu; simp at hu

theorem process_line_dup {j : Json} {u : Json} {k : String}
    (sid : Option String) (l g : List String)
    (hu : usage_of j = some u) (hk : dedup_key_of j = some k)
    (hmem : k ∈ l ∨ k ∈ g) :
    process_line j sid l g = .ok (none, l, g) := by
  obtain ⟨t, msg, hm, hus, hn⟩ := usage_of_elim hu
  rw [process_line_usage_some sid l g hm hus hn]
  rw [dedup_key_of_eq hm] at hk
  cases hmid : (jget msg "id").bind Json.asStr with
  | none => rw [hmid] at hk; simp at hk
  | some mid =>
    cases hrid : (jget j "requestId").bind Json.asStr with
    | none => rw [hmid, hrid] at hk; simp at hk
    | some rid =>
      rw [hmid, hrid] at hk
      simp only [Option.some.injEq] at hk
      subst hk
      simp [hmem]

theorem process_line_fresh {j : Json} {u : Json} {k : String}
    (sid : Option String) (l g : List String)
    (hu : usage_of j = some u) (hk : dedup_key_of j = some k)
    (hl : k ∉ l) (hg : k ∉ g) :
    process_line j sid l g = .ok (extracted_entry j sid, k :: l, k :: g) := by
  obtain ⟨t, msg, hm, hus, hn⟩ := usage_of_elim hu
  rw [process_line_usage_some sid l g hm hus hn]
  rw [dedup_key_of_eq hm] at hk
  rw [extracted_entry_eq sid hm hu]
  cases hmid : (jget msg "id").bind Json.asStr with
  | none => rw [hmid] at hk; simp at hk
  | some mid =>
    cases hrid : (jget j "requestId").bind Json.asStr with
    | none => rw [hmid, hrid] at hk; simp at hk
    | some rid =>
      rw [hmid, hrid] at hk
      simp only [Option.some.injEq] at hk
      subst hk
      have : ¬ (dedup_key mid rid ∈ l ∨ dedup_key mid rid ∈ g) := by
        intro hc
        cases hc with
        | inl h => exact hl h
        | inr h => exact hg h
      simp [this]

theorem process_line_keyless {j : Json} {u : Json}
    (sid : Option String) (l g : List String)
    (hu : usage_of j = some u) (hk : dedup_key_of j = none) :
    process_line j sid l g = .ok (extracted_entry j sid, l, g) := by
  obtain ⟨t, msg, hm, hus, hn⟩ := usage_of_elim hu
  rw [process_line_usage_some sid l g hm hus hn]
  rw [dedup_key_of_eq hm] at hk
  rw [extracted_entry_eq sid hm hu]
  cases hmid : (jget msg "id").bind Json.asStr with
  | none => rfl
  | some mid =>
    cases hrid : (jget j "requestId").bind Json.asStr with
    | none => rfl
    | some rid => rw [hmid, hrid] at hk; simp at hk

theorem entry_from_eq_none_iff {j : Json} {t : Int} {msg u : Json} (sid : Option String) :
    entry_from j t msg u sid = none ↔ zero_usage u := by
  simp only [entry_from, zero_usage]
  split
  · next hz => simp [hz]
  · next hz => simp [hz]

theorem entry_from_some_elim {j : Json} {t : Int} {msg u : Json}
    {sid : Option String} {e : UsageEntry}
    (h : entry_from j t msg u sid = some e) :
    e.timestamp = t ∧
    e.input_tokens = (tokens_of u).1 ∧ e.output_tokens = (tokens_of u).2.1 ∧
    e.cache_read_tokens = (tokens_of u).2.2.1 ∧
    e.cache_creation_tokens = (tokens_of u).2.2.2 ∧
    e.model = ((jget msg "model").bind Json.asStr).getD "unknown" ∧
    e.session_id = sid ∧
    e.request_id = (jget j "requestId").bind Json.asStr ∧
    e.project_path = (jget j "cwd").bind Json.asStr ∧
    e.cost = ((jget j "costUSD").bind Json.asF64).getD
      (calculate_cost e.model e.input_tokens e.output_tokens
        e.cache_read_tokens e.cache_creation_tokens) ∧
    ¬ zero_usage u := by
  simp only [entry_from] at h
  split at h
  · exact absurd h (by simp)
  · next hz =>
    simp only [Option.some.injEq] at h
    subst h
    exact ⟨rfl, rfl, rfl, rfl, rfl, rfl, rfl, rfl, rfl, rfl, hz⟩

theorem process_line_some_elim {j : Json} {sid : Option String}
    {l g l2 g2 : List String} {e : UsageEntry}
    (h : process_line j sid l g = .ok (some e, l2, g2)) :
    ∃ t msg u, line_meta j = some (t, msg) ∧ usage_of j = some u ∧
      entry_from j t msg u sid = some e := by
  cases hm : line_meta j with
  | none =>
    obtain ⟨s, hs⟩ := process_line_of_meta_none sid l g hm
    rw [hs] at h
    simp at h
  | some tm =>
    obtain ⟨t, msg⟩ := tm
    cases husage : usage_of j with
    | none =>
      rw [process_line_of_usage_none sid l g hm husage] at h
      simp at h
    | some u =>
      obtain ⟨t', msg', hm', hus, hn⟩ := usage_of_elim husage
      rw [hm] at hm'
      simp only [Option.some.injEq, Prod.mk.injEq] at hm'
      obtain ⟨rfl, rfl⟩ := hm'
      rw [process_line_usage_some sid l g hm hus hn] at h
      refine ⟨t, msg, u, rfl, rfl, ?_⟩
      revert h
      cases hmid : (jget msg "id").bind Json.asStr with
      | none =>
        intro h
        simp only [Except.ok.injEq, Prod.mk.injEq] at h
        exact h.1
      | some mid =>
        cases hrid : (jget j "requestId").bind Json.asStr with
        | none =>
          intro h
          simp only [Except.ok.injEq, Prod.mk.injEq] at h
          exact h.1
        | some rid =>
          intro h
          by_cases hmem : dedup_key mid rid ∈ l ∨ dedup_key mid rid ∈ g
          · simp [hmem] at h
          · simp only [hmem, if_false, Except.ok.injEq, Prod.mk.injEq] at h
            exact h.1

theorem process_file_step_cases (sid : Option String) (es : List UsageEntry)
    (l g : List String) (j : Json) :
    (process_file_step sid (es, l, g) j = (es, l, g) ∧
      (usage_of j = none ∨ ∃ k, dedup_key_of j = some k ∧ (k ∈ l ∨ k ∈ g)))
    ∨ (∃ u, usage_of j = some u ∧ dedup_key_of j = none ∧
        process_file_step sid (es, l, g) j = (es ++ (extracted_entry j sid).toList, l, g))
    ∨ (∃ u k, usage_of j = some u ∧ dedup_key_of j = some k ∧ k ∉ l ∧ k ∉ g ∧
        process_file_step sid (es, l, g) j =
          (es ++ (extracted_entry j sid).toList, k :: l, k :: g)) := by
  cases hm : line_meta j with
  | none =>
    left
    obtain ⟨s, hs⟩ := process_line_of_meta_none sid l g hm
    constructor
    · unfold process_file_step
      rw [hs]
    · left
      unfold usage_of
      rw [hm]
      rfl
  | some tm =>
    obtain ⟨t, msg⟩ := tm
    cases hu : usage_of j with
    | none =>
      left
      constructor
      · unfold process_file_step
        rw [process_line_of_usage_none sid l g hm hu]
      · exact Or.inl rfl
    | some u =>
      cases hk : dedup_key_of j with
      | none =>
        right; left
        refine ⟨u, rfl, rfl, ?_⟩
        unfold process_file_step
        rw [process_line_keyless sid l g hu hk]
        cases he : extracted_entry j sid with
        | none => simp
        | some e => rfl
      | some k =>
        by_cases hml : k ∈ l
        · left
          constructor
          · unfold process_file_step
            rw [process_line_dup sid l g hu hk (Or.inl hml)]
          · exact Or.inr ⟨k, rfl, Or.inl hml⟩
        · by_cases hmg : k ∈ g
          · left
            constructor
            · unfold process_file_step
              rw [process_line_dup sid l g hu hk (Or.inr hmg)]
            · exact Or.inr ⟨k, rfl, Or.inr hmg⟩
          · right; right
            refine ⟨u, k, rfl, rfl, hml, hmg, ?_⟩
            unfold process_file_step
            rw [process_line_fresh sid l g hu hk hml hmg]
            cases he : extracted_entry j sid with
            | none => simp
            | some e => rfl

theorem process_fold_inv (sid : Option String) :
    ∀ (file : List Json) (es : List UsageEntry) (l g : List String), l ⊆ g →
      (file.foldl (process_file_step sid) (es, l, g)).2.1 ⊆
        (file.foldl (process_file_step sid) (es, l, g)).2.2 ∧
      g ⊆ (file.foldl (process_file_step sid) (es, l, g)).2.2 ∧
      (∀ j ∈ file, ∀ u k, usage_of j = some u → dedup_key_of j = some k →
        k ∈ (file.foldl (process_file_step sid) (es, l, g)).2.2) := by
  intro file
  induction file with
  | nil =>
    intro es l g hlg
    refine ⟨hlg, fun x hx => hx, ?_⟩
    intro j hj
    simp at hj
  | cons j rest ih =>
    intro es l g hlg
    rcases process_file_step_cases sid es l g j with
      ⟨hstep, hinfo⟩ | ⟨u, hu, hk, hstep⟩ | ⟨u, k, hu, hk, hml, hmg, hstep⟩
    · rw [List.foldl_cons, hstep]
      obtain ⟨hsub, hmono, hcap⟩ := ih es l g hlg
      refine ⟨hsub, hmono, ?_⟩
      intro j' hj' u k hu' hk'
      rcases List.mem_cons.mp hj' with rfl | hmem
      · rcases hinfo with hnone | ⟨k0, hk0, hk0mem⟩
        · rw [hnone] at hu'; exact absurd hu' (by simp)
        · rw [hk0] at hk'
          simp only [Option.some.injEq] at hk'
          subst hk'
          have hkg : k0 ∈ g := by
            rcases hk0mem with h | h
            · exact hlg h
            · exact h
          exact hmono hkg
      · exact hcap j' hmem u k hu' hk'
    · rw [List.foldl_cons, hstep]
      obtain ⟨hsub, hmono, hcap⟩ := ih (es ++ (extracted_entry j sid).toList) l g hlg
      refine ⟨hsub, hmono, ?_⟩
      intro j' hj' u' k hu' hk'
      rcases List.mem_cons.mp hj' with rfl | hmem
      · rw [hk] at hk'; exact absurd hk' (by simp)
      · exact hcap j' hmem u' k hu' hk'
    · rw [List.foldl_cons, hstep]
      have hlg2 : k :: l ⊆ k :: g := List.cons_subset_cons k hlg
      obtain ⟨hsub, hmono, hcap⟩ := ih (es ++ (extracted_entry j sid).toList) (k :: l) (k :: g) hlg2
      refine ⟨hsub, fun x hx => hmono (List.mem_cons_of_mem k hx), ?_⟩
      intro j' hj' u' k' hu' hk'
      rcases List.mem_cons.mp hj' with rfl | hmem
      · rw [hk] at hk'
        simp only [Option.some.injEq] at hk'
        subst hk'
        exact hmono (List.mem_cons_self k g)
      · exact hcap j' hmem u' k' hu' hk'

theorem process_fold_suppressed (sid : Option String) :
    ∀ (file : List Json) (es : List UsageEntry) (l g : List String),
      (∀ j ∈ file, keyless_kept j = false ∧
        (∀ u k, usage_of j = some u → dedup_key_of j = some k → k ∈ g)) →
      (file.foldl (process_file_step sid) (es, l, g)).1 = es := by
  intro file
  induction file with
  | nil => intro es l g _; rfl
  | cons j rest ih =>
    intro es l g hfile
    obtain ⟨hkl, hcap⟩ := hfile j (List.mem_cons_self j rest)
    have hrest : ∀ j' ∈ rest, keyless_kept j' = false ∧
        (∀ u k, usage_of j' = some u → dedup_key_of j' = some k → k ∈ g) :=
      fun j' hj' => hfile j' (List.mem_cons_of_mem j hj')
    rcases process_file_step_cases sid es l g j with
      ⟨hstep, _⟩ | ⟨u, hu, hk, hstep⟩ | ⟨u, k, hu, hk, hml, hmg, hstep⟩
    · rw [List.foldl_cons, hstep]
      exact ih es l g hrest
    · have hzero : zero_usage u := by
        unfold keyless_kept at hkl
        rw [hu, hk] at hkl
        simpa using hkl
      have hnone : extracted_entry j sid = none := by
        obtain ⟨t, msg, hm, _, _⟩ := usage_of_elim hu
        rw [extracted_entry_eq sid hm hu]
        exact (entry_from_eq_none_iff sid).mpr hzero
      rw [List.foldl_cons, hstep, hnone]
      have happ : es ++ (none : Option UsageEntry).toList = es := by simp
      rw [happ]
      exact ih es l g hrest
    · exact absurd (hcap u k hu hk) hmg

/-! ## Aggregator helper lemmas -/

theorem updateAssoc_cost_sum (key : String) (init : ModelStats)
    (f : ModelStats → ModelStats) (c : ℚ)
    (hinit : init.total_cost = 0) (hf : ∀ v, (f v).total_cost = v.total_cost + c) :
    ∀ m : List (String × ModelStats),
      ((updateAssoc key init f m).map (fun kv => kv.2.total_cost)).sum =
        ((m.map (fun kv => kv.2.total_cost)).sum) + c := by
  intro m
  induction m with
  | nil => simp [updateAssoc, hf, hinit]
  | cons kv rest ih =>
    obtain ⟨k, v⟩ := kv
    unfold updateAssoc
    by_cases hkey : k = key
    · simp only [hkey, if_true, List.map_cons, List.sum_cons, hf]
      ring
    · simp only [hkey, if_false, List.map_cons, List.sum_cons, ih]
      ring

theorem model_fold_cost_sum :
    ∀ (entries : List UsageEntry) (m : List (String × ModelStats)),
      (((entries.foldl
        (fun m e => updateAssoc e.model (init_model_stat e) (add_entry_model e) m) m)).map
          (fun kv => kv.2.total_cost)).sum =
        ((m.map (fun kv => kv.2.total_cost)).sum) + (entries.map (fun e => e.cost)).sum := by
  intro entries
  induction entries with
  | nil => simp
  | cons e rest ih =>
    intro m
    rw [List.foldl_cons, ih]
    rw [updateAssoc_cost_sum e.model (init_model_stat e) (add_entry_model e) e.cost rfl
      (fun v => by simp [add_entry_model])]
    simp only [List.map_cons, List.sum_cons]
    ring

theorem updateAssoc_all {β : Type} (P : β → Prop) (key : String) (init : β)
    (f : β → β) (hf : ∀ v, P (f v)) :
    ∀ m : List (String × β), (∀ kv ∈ m, P kv.2) →
      ∀ kv ∈ updateAssoc key init f m, P kv.2 := by
  intro m
  induction m with
  | nil =>
    intro _ kv hkv
    simp only [updateAssoc, List.mem_singleton] at hkv
    subst hkv
    exact hf init
  | cons kv0 rest ih =>
    obtain ⟨k, v⟩ := kv0
    intro hm kv hkv
    unfold updateAssoc at hkv
    by_cases hkey : k = key
    · rw [if_pos hkey] at hkv
      rcases List.mem_cons.mp hkv with rfl | hmem
      · exact hf v
      · exact hm _ (List.mem_cons_of_mem _ hmem)
    · rw [if_neg hkey] at hkv
      rcases List.mem_cons.mp hkv with rfl | hmem
      · exact hm _ (List.mem_cons_self _ _)
      · exact ih (fun kv' hkv' => hm kv' (List.mem_cons_of_mem _ hkv')) kv hmem

theorem assoc_fold_all {β : Type} (P : β → Prop) (keyf : UsageEntry → String)
    (initf : UsageEntry → β) (ff : UsageEntry → β → β)
    (hf : ∀ e v, P (ff e v)) :
    ∀ (entries : List UsageEntry) (m : List (String × β)), (∀ kv ∈ m, P kv.2) →
      ∀ kv ∈ entries.foldl (fun m e => updateAssoc (keyf e) (initf e) (ff e) m) m,
        P kv.2 := by
  intro entries
  induction entries with
  | nil => intro m hm kv hkv; exact hm kv hkv
  | cons e rest ih =>
    intro m hm kv hkv
    rw [List.foldl_cons] at hkv
    exact ih _ (updateAssoc_all P (keyf e) (initf e) (ff e) (hf e) m hm) kv hkv

theorem afterMarkerScan_nil (markers : List String) :
    afterMarkerScan markers [] = none := rfl

theorem afterMarkerScan_single (markers : List String) (c : String) :
    afterMarkerScan markers [c] = none := rfl

theorem afterMarkerScan_cons₂ (markers : List String) (c next : String)
    (rest : List String) :
    afterMarkerScan markers (c :: next :: rest) =
      if markers.contains c then some next
      else afterMarkerScan markers (next :: rest) := rfl

theorem afterMarkerScan_eq_findIdx (markers : List String) :
    ∀ cs : List String,
      afterMarkerScan markers cs =
        if h : (cs.findIdx (fun c => markers.contains c)) + 1 < cs.length then
          some (cs.get ⟨cs.findIdx (fun c => markers.contains c) + 1, h⟩)
        else none := by
  intro cs
  induction cs with
  | nil => simp [afterMarkerScan_nil]
  | cons c tail ih =>
    cases tail with
    | nil =>
      have hno : ∀ n : Nat, ¬ (n + 1 < 1) := by omega
      rw [afterMarkerScan_single]
      rw [dif_neg (by simp only [List.length_cons, List.length_nil]; omega)]
    | cons next rest =>
      cases hp : markers.contains c with
      | true =>
        rw [afterMarkerScan_cons₂, hp, List.findIdx_cons, hp]
        simp only [cond_true, if_true]
        rw [dif_pos (by simp only [List.length_cons]; omega)]
        rfl
      | false =>
        rw [afterMarkerScan_cons₂, hp, List.findIdx_cons, hp]
        simp only [cond_false, Bool.false_eq_true, if_false]
        rw [ih]
        by_cases h2 : (next :: rest).findIdx (fun c => markers.contains c) + 1 <
            (next :: rest).length
        · rw [dif_pos h2, dif_pos (by simp only [List.length_cons] at h2 ⊢; omega)]
          rfl
        · rw [dif_neg h2, dif_neg (by simp only [List.length_cons] at h2 ⊢; omega)]

/-! ## Claim theorems -/

/-- C4: for every model identifier, `get_model_pricing` and
`get_model_display_name` are total and check the two substring buckets in
fixed priority order: an id containing `"opus-4"` or `"claude-opus-4"` gets
the Opus-4 schedule (15 / 75 / 1.50 / 18.75) and name `"Opus 4"`; otherwise
one containing `"sonnet-4"` or `"claude-sonnet-4"` gets the Sonnet-4
schedule (3 / 15 / 0.30 / 3.75) and name `"Sonnet 4"`; anything else gets
the all-zero schedule and its own id as display name, which is never empty
for a non-empty id. -/
theorem C4_pricing_priority (model : String) :
    ((strContainsStr model "opus-4" || strContainsStr model "claude-opus-4") = true →
      get_model_pricing model =
        { input_price := 15, output_price := 75,
          cache_read_price := 3 / 2, cache_write_price := 75 / 4 } ∧
      get_model_display_name model = "Opus 4") ∧
    ((strContainsStr model "opus-4" || strContainsStr model "claude-opus-4") = false →
      (strContainsStr model "sonnet-4" || strContainsStr model "claude-sonnet-4") = true →
      get_model_pricing model =
        { input_price := 3, output_price := 15,
          cache_read_price := 3 / 10, cache_write_price := 15 / 4 } ∧
      get_model_display_name model = "Sonnet 4") ∧
    ((strContainsStr model "opus-4" || strContainsStr model "claude-opus-4") = false →
      (strContainsStr model "sonnet-4" || strContainsStr model "claude-sonnet-4") = false →
      get_model_pricing model =
        { input_price := 0, output_price := 0,
          cache_read_price := 0, cache_write_price := 0 } ∧
      get_model_display_name model = model) ∧
    (model ≠ "" → get_model_display_name model ≠ "") := by
  refine ⟨?_, ?_, ?_, ?_⟩
  · intro h
    constructor <;> simp [get_model_pricing, get_model_display_name, h]
  · intro h1 h2
    constructor <;> simp [get_model_pricing, get_model_display_name, h1, h2]
  · intro h1 h2
    constructor <;> simp [get_model_pricing, get_model_display_name, h1, h2]
  · intro hne
    unfold get_model_display_name
    by_cases h1 : (strContainsStr model "opus-4" || strContainsStr model "claude-opus-4") = true
    · simp [h1]
    · by_cases h2 : (strContainsStr model "sonnet-4" || strContainsStr model "claude-sonnet-4") = true
      · simp [h1, h2]
      · simp only [Bool.not_eq_true] at h1 h2
        simp [h1, h2, hne]

/-- Witness for C4: the Opus bucket, the fall-through bucket, and the
nonempty-name guarantee at concrete model ids. -/
theorem C4_pricing_priority_witness :
    get_model_pricing "claude-opus-4-1" =
      { input_price := 15, output_price := 75,
        cache_read_price := 3 / 2, cache_write_price := 75 / 4 } ∧
    get_model_display_name "gpt-5-experimental" = "gpt-5-experimental" ∧
    get_model_display_name "gpt-5-experimental" ≠ "" :=
  ⟨((C4_pricing_priority "claude-opus-4-1").1 (by decide)).1,
   (((C4_pricing_priority "gpt-5-experimental").2.2.1 (by decide) (by decide))).2,
   ((C4_pricing_priority "gpt-5-experimental").2.2.2 (by decide))⟩

/-- C7: `extract_project_name` behaves exactly as specified — split on `/`
dropping empty components, return the component after the first marker when
one is followed by a component, otherwise the rightmost non-boring
component, otherwise the last component, or `"Unknown"` on no components —
and the two spec examples evaluate as stated. -/
theorem C7_extract_project_name :
    (∀ path : String, extract_project_name path = spec_project_name path) ∧
    extract_project_name "/home/me/Github/widget-app/src/main" = "widget-app" ∧
    extract_project_name "/tmp/scripts" = "tmp" := by
  refine ⟨?_, by decide, by decide⟩
  intro path
  unfold extract_project_name spec_project_name
  dsimp only
  rw [afterMarkerScan_eq_findIdx]
  by_cases h : ((splitOnChar '/' path).filter (fun s => s ≠ "")).findIdx
      (fun c => project_markers.contains c) + 1 <
      ((splitOnChar '/' path).filter (fun s => s ≠ "")).length
  · rw [dif_pos h, dif_pos h]
  · rw [dif_neg h, dif_neg h]

theorem extracted_entry_some_elim {j : Json} {sid : Option String} {e : UsageEntry}
    (h : extracted_entry j sid = some e) :
    ∃ t msg u, line_meta j = some (t, msg) ∧ usage_of j = some u ∧
      entry_from j t msg u sid = some e := by
  unfold extracted_entry at h
  cases hm : line_meta j with
  | none => rw [hm] at h; simp at h
  | some tm =>
    obtain ⟨t, msg⟩ := tm
    rw [hm] at h
    simp only [Option.some_bind] at h
    cases hu : usage_of j with
    | none => rw [hu] at h; simp at h
    | some u =>
      rw [hu] at h
      simp only [Option.some_bind] at h
      exact ⟨t, msg, u, rfl, rfl, h⟩

theorem extracted_entry_nonzero {j : Json} {sid : Option String} {e : UsageEntry}
    (h : extracted_entry j sid = some e) :
    ¬ (e.input_tokens = 0 ∧ e.output_tokens = 0 ∧
       e.cache_read_tokens = 0 ∧ e.cache_creation_tokens = 0) := by
  obtain ⟨t, msg, u, _, _, hef⟩ := extracted_entry_some_elim h
  obtain ⟨_, hi, ho, hcr, hcc, _, _, _, _, _, hnz⟩ := entry_from_some_elim hef
  intro ⟨z1, z2, z3, z4⟩
  exact hnz ⟨hi ▸ z1, ho ▸ z2, hcr ▸ z3, hcc ▸ z4⟩

theorem process_fold_entries (P : UsageEntry → Prop) (sid : Option String)
    (hP : ∀ (j : Json) (e : UsageEntry), extracted_entry j sid = some e → P e) :
    ∀ (file : List Json) (es : List UsageEntry) (l g : List String),
      (∀ e ∈ es, P e) →
      ∀ e ∈ (file.foldl (process_file_step sid) (es, l, g)).1, P e := by
  intro file
  induction file with
  | nil => intro es l g hes e he; exact hes e he
  | cons j rest ih =>
    intro es l g hes
    rcases process_file_step_cases sid es l g j with
      ⟨hstep, _⟩ | ⟨u, _, _, hstep⟩ | ⟨u, k, _, _, _, _, hstep⟩ <;>
      rw [List.foldl_cons, hstep]
    · exact ih es l g hes
    all_goals {
      refine ih _ _ _ ?_
      intro e he
      rcases List.mem_append.mp he with he | he
      · exact hes e he
      · cases hext : extracted_entry j sid with
        | none => rw [hext] at he; simp at he
        | some e0 =>
          rw [hext] at he
          simp only [Option.toList_some, List.mem_singleton] at he
          subst he
          exact hP j _ hext
    }

/-- C2: for every extracted record, a numeric top-level `costUSD` is used
verbatim as the record's cost, and otherwise the cost is
Σ (tokens / 1,000,000 × per-million rate) over the four categories for the
record's model; in particular the fallback on model `"claude-sonnet-4-x"`
with one million input and one million output tokens is exactly 18. -/
theorem C2_cost :
    (∀ (j : Json) (sid : Option String) (l g l2 g2 : List String) (e : UsageEntry),
      process_line j sid l g = .ok (some e, l2, g2) →
      ((∀ c : ℚ, (jget j "costUSD").bind Json.asF64 = some c → e.cost = c) ∧
       ((jget j "costUSD").bind Json.asF64 = none →
         e.cost = calculate_cost e.model e.input_tokens e.output_tokens
           e.cache_read_tokens e.cache_creation_tokens))) ∧
    calculate_cost "claude-sonnet-4-x" 1000000 1000000 0 0 = 18 := by
  constructor
  · intro j sid l g l2 g2 e h
    obtain ⟨t, msg, u, _, _, hef⟩ := process_line_some_elim h
    obtain ⟨_, _, _, _, _, _, _, _, _, hcost, _⟩ := entry_from_some_elim hef
    constructor
    · intro c hc
      rw [hcost, hc]
      rfl
    · intro hc
      rw [hcost, hc]
      rfl
  · have h1 : (strContainsStr "claude-sonnet-4-x" "opus-4" ||
        strContainsStr "claude-sonnet-4-x" "claude-opus-4") = false := by decide
    have h2 : (strContainsStr "claude-sonnet-4-x" "sonnet-4" ||
        strContainsStr "claude-sonnet-4-x" "claude-sonnet-4") = true := by decide
    simp only [calculate_cost, get_model_pricing, h1, h2, Bool.false_eq_true, if_false,
      if_true]
    norm_num

/-- Witness for C2: on a concrete line carrying `costUSD = 7` the kept
record's cost is exactly 7. -/
theorem C2_cost_witness :
    process_line jline_keyed1 none [] [] = .ok (some entry_keyed1, ["m1:r1"], ["m1:r1"]) ∧
    entry_keyed1.cost = 7 :=
  ⟨rfl,
   ((C2_cost.1 jline_keyed1 none [] [] ["m1:r1"] ["m1:r1"] entry_keyed1 rfl).1 7 rfl)⟩

/-- C3: extraction never materializes a record whose four token counts are
all zero: a kept record of `process_line` has a nonzero count, a line whose
usage object carries only zeros yields `none`, and hence no such record is
in any `process_file` record list (from which every aggregate view is
built). -/
theorem C3_no_zero_token_records :
    (∀ (j : Json) (sid : Option String) (l g l2 g2 : List String) (e : UsageEntry),
      process_line j sid l g = .ok (some e, l2, g2) →
      ¬ (e.input_tokens = 0 ∧ e.output_tokens = 0 ∧
         e.cache_read_tokens = 0 ∧ e.cache_creation_tokens = 0)) ∧
    (∀ (j : Json) (sid : Option String) (l g : List String) (u : Json),
      usage_of j = some u → zero_usage u →
      ∃ l2 g2, process_line j sid l g = .ok (none, l2, g2)) ∧
    (∀ (file : List Json) (sid : Option String) (g : List String) (e : UsageEntry),
      e ∈ (process_file file sid g).1 →
      ¬ (e.input_tokens = 0 ∧ e.output_tokens = 0 ∧
         e.cache_read_tokens = 0 ∧ e.cache_creation_tokens = 0)) := by
  refine ⟨?_, ?_, ?_⟩
  · intro j sid l g l2 g2 e h
    obtain ⟨t, msg, u, hm, hu, hef⟩ := process_line_some_elim h
    exact extracted_entry_nonzero (by rw [extracted_entry_eq sid hm hu]; exact hef)
  · intro j sid l g u hu hz
    have hnone : extracted_entry j sid = none := by
      obtain ⟨t, msg, hm, _, _⟩ := usage_of_elim hu
      rw [extracted_entry_eq sid hm hu]
      exact (entry_from_eq_none_iff sid).mpr hz
    cases hk : dedup_key_of j with
    | none => exact ⟨l, g, by rw [process_line_keyless sid l g hu hk, hnone]⟩
    | some k =>
      by_cases hml : k ∈ l
      · exact ⟨l, g, process_line_dup sid l g hu hk (Or.inl hml)⟩
      · by_cases hmg : k ∈ g
        · exact ⟨l, g, process_line_dup sid l g hu hk (Or.inr hmg)⟩
        · exact ⟨k :: l, k :: g,
            by rw [process_line_fresh sid l g hu hk hml hmg, hnone]⟩
  · intro file sid g e he
    unfold process_file at he
    exact process_fold_entries _ sid
      (fun j e0 h0 => extracted_entry_nonzero h0) file [] [] g (by simp) e he

/-- Witness for C3: the kept record of a concrete nonzero line has a
nonzero count, and a concrete all-zero line is dropped. -/
theorem C3_no_zero_token_records_witness :
    (¬ (entry_keyed1.input_tokens = 0 ∧ entry_keyed1.output_tokens = 0 ∧
        entry_keyed1.cache_read_tokens = 0 ∧ entry_keyed1.cache_creation_tokens = 0)) ∧
    (∃ l2 g2, process_line jline_zero_keyed none [] [] = .ok (none, l2, g2)) :=
  ⟨C3_no_zero_token_records.1 jline_keyed1 none [] [] ["m1:r1"] ["m1:r1"] entry_keyed1 rfl,
   C3_no_zero_token_records.2.1 jline_zero_keyed none [] []
     (.obj [("input_tokens", .num 0)]) rfl (by decide)⟩

/-- C10: a line with present, non-null usage and a fresh composite key
inserts the key into both dedup sets even when it is then dropped for
all-zero token counts, and consequently any later line with the same key
(in particular one with nonzero counts) is dropped as a duplicate. -/
theorem C10_zero_token_key_insertion
    (j : Json) (sid : Option String) (l g : List String) (u : Json) (k : String)
    (hu : usage_of j = some u) (hk : dedup_key_of j = some k)
    (hl : k ∉ l) (hg : k ∉ g) (hz : zero_usage u) :
    process_line j sid l g = .ok (none, k :: l, k :: g) ∧
    (∀ (j2 : Json) (sid2 : Option String) (u2 : Json),
      usage_of j2 = some u2 → dedup_key_of j2 = some k →
      process_line j2 sid2 (k :: l) (k :: g) = .ok (none, k :: l, k :: g)) := by
  constructor
  · have hnone : extracted_entry j sid = none := by
      obtain ⟨t, msg, hm, _, _⟩ := usage_of_elim hu
      rw [extracted_entry_eq sid hm hu]
      exact (entry_from_eq_none_iff sid).mpr hz
    rw [process_line_fresh sid l g hu hk hl hg, hnone]
  · intro j2 sid2 u2 hu2 hk2
    exact process_line_dup sid2 (k :: l) (k :: g) hu2 hk2
      (Or.inl (List.mem_cons_self k l))

/-- Witness for C10: a concrete all-zero keyed line inserts `"m:r"` into
both sets, and a concrete nonzero line with the same pair is then dropped. -/
theorem C10_zero_token_key_insertion_witness :
    process_line jline_zero_keyed none [] [] = .ok (none, ["m:r"], ["m:r"]) ∧
    process_line jline_nonzero_keyed none ["m:r"] ["m:r"] =
      .ok (none, ["m:r"], ["m:r"]) := by
  have h := C10_zero_token_key_insertion jline_zero_keyed none [] []
    (.obj [("input_tokens", .num 0)]) "m:r" rfl rfl (by simp) (by simp) (by decide)
  exact ⟨h.1, h.2 jline_nonzero_keyed none (.obj [("input_tokens", .num 1)]) rfl rfl⟩

/-- C1 counterexample: the claim asserts that when both ids are present and
the composite key is unseen, the key is inserted into both sets **and the
record is kept**.  On `jline_zero_keyed` — both ids present, key `"m:r"`
fresh in the empty sets — the key is inserted into both sets, yet no record
is kept, because the all-zero token filter runs after the dedup step. -/
theorem C1_counterexample :
    dedup_key_of jline_zero_keyed = some "m:r" ∧
    usage_of jline_zero_keyed = some (.obj [("input_tokens", .num 0)]) ∧
    process_line jline_zero_keyed none [] [] = .ok (none, ["m:r"], ["m:r"]) :=
  ⟨rfl, rfl, rfl⟩

/-- C1 (amended): a record is suppressed as a duplicate exactly when both
`message.id` and `requestId` are present as strings and the composite key is
already in the local or global set; a fresh key is inserted into both sets
and the record is kept **provided its token counts are not all zero**; a
record missing either half of the pair is never dropped as a duplicate (its
sets are untouched, and it is kept exactly when its counts are not all
zero).  Two records with the same pair in different files yield exactly one
kept record; two records with distinct pairs are both kept. -/
theorem C1_dedup :
    (∀ (j : Json) (sid : Option String) (l g : List String) (u : Json) (k : String),
      usage_of j = some u → dedup_key_of j = some k →
      ((k ∈ l ∨ k ∈ g) → process_line j sid l g = .ok (none, l, g)) ∧
      (k ∉ l → k ∉ g →
        process_line j sid l g = .ok (extracted_entry j sid, k :: l, k :: g) ∧
        (extracted_entry j sid = none ↔ zero_usage u))) ∧
    (∀ (j : Json) (sid : Option String) (l g : List String) (u : Json),
      usage_of j = some u → dedup_key_of j = none →
      process_line j sid l g = .ok (extracted_entry j sid, l, g) ∧
      (extracted_entry j sid = none ↔ zero_usage u)) ∧
    (process_file [jline_keyed1] none [] = ([entry_keyed1], ["m1:r1"]) ∧
     process_file [jline_keyed1] none ["m1:r1"] = ([], ["m1:r1"]) ∧
     process_file [jline_keyed2] none ["m1:r1"] = ([entry_keyed2], ["m2:r2", "m1:r1"])) := by
  refine ⟨?_, ?_, rfl, rfl, rfl⟩
  · intro j sid l g u k hu hk
    obtain ⟨t, msg, hm, _, _⟩ := usage_of_elim hu
    refine ⟨fun hmem => process_line_dup sid l g hu hk hmem, fun hl hg => ?_⟩
    refine ⟨process_line_fresh sid l g hu hk hl hg, ?_⟩
    rw [extracted_entry_eq sid hm hu]
    exact entry_from_eq_none_iff sid
  · intro j sid l g u hu hk
    obtain ⟨t, msg, hm, _, _⟩ := usage_of_elim hu
    refine ⟨process_line_keyless sid l g hu hk, ?_⟩
    rw [extracted_entry_eq sid hm hu]
    exact entry_from_eq_none_iff sid

/-- Witness for C1 (amended): the dup-drop case and the fresh-insert case
of the amended claim at a concrete keyed line. -/
theorem C1_dedup_witness :
    process_line jline_keyed1 none ["m1:r1"] [] = .ok (none, ["m1:r1"], []) ∧
    process_line jline_keyed1 none [] [] =
      .ok (extracted_entry jline_keyed1 none, ["m1:r1"], ["m1:r1"]) := by
  have h := (C1_dedup.1 jline_keyed1 none
    (l := ["m1:r1"]) (g := []) (.obj [("input_tokens", .num 1)]) "m1:r1" rfl rfl).1
    (Or.inl (by simp))
  have h2 := ((C1_dedup.1 jline_keyed1 none (l := []) (g := [])
    (.obj [("input_tokens", .num 1)]) "m1:r1" rfl rfl).2 (by simp) (by simp)).1
  exact ⟨h, h2⟩

/-- C5: for every non-empty record list, the per-model total costs summed
over all rows of `calculate_model_stats` equal the `total_cost` of
`calculate_usage_stats` on the same list (exactly, in the rational model of
`f64`). -/
theorem C5_model_cost_consistency (entries : List UsageEntry) (h : entries ≠ []) :
    ((calculate_model_stats entries).map (fun s => s.total_cost)).sum =
      (calculate_usage_stats entries).total_cost := by
  have h2 : (calculate_usage_stats entries).total_cost =
      (entries.map (fun e => e.cost)).sum := by
    simp [calculate_usage_stats, h]
  rw [h2]
  unfold calculate_model_stats
  dsimp only
  rw [((List.mergeSort_perm
    (valuesOf (entries.foldl
      (fun m e => updateAssoc e.model (init_model_stat e) (add_entry_model e) m) []))
    (fun a b => b.total_cost ≤ a.total_cost)).map (fun s => s.total_cost)).sum_eq]
  rw [show ∀ m : List (String × ModelStats),
      (valuesOf m).map (fun s => s.total_cost) = m.map (fun kv => kv.2.total_cost) from
    fun m => by simp [valuesOf, List.map_map, Function.comp]]
  have hsum := model_fold_cost_sum entries []
  simpa using hsum

/-- Witness for C5 at a concrete singleton record list. -/
theorem C5_model_cost_consistency_witness :
    ([entry_keyed1] : List UsageEntry) ≠ [] ∧
    ((calculate_model_stats [entry_keyed1]).map (fun s => s.total_cost)).sum =
      (calculate_usage_stats [entry_keyed1]).total_cost :=
  ⟨by simp, C5_model_cost_consistency [entry_keyed1] (by simp)⟩

/-- C9: in every aggregate row, `total_tokens` equals the sum of the row's
four token sums for `ProjectStats`, `SessionStats` and `DailyUsage`, while
for `ModelStats` it equals the input plus output sums only. -/
theorem C9_total_tokens (entries : List UsageEntry) :
    (∀ row ∈ calculate_project_stats entries,
      row.total_tokens = row.input_tokens + row.output_tokens +
        row.cache_read_tokens + row.cache_creation_tokens) ∧
    (∀ row ∈ calculate_session_stats entries,
      row.total_tokens = row.input_tokens + row.output_tokens +
        row.cache_read_tokens + row.cache_creation_tokens) ∧
    (∀ row ∈ calculate_daily_usage entries,
      row.total_tokens = row.input_tokens + row.output_tokens +
        row.cache_read_tokens + row.cache_creation_tokens) ∧
    (∀ row ∈ calculate_model_stats entries,
      row.total_tokens = row.input_tokens + row.output_tokens) := by
  refine ⟨?_, ?_, ?_, ?_⟩
  · intro row hrow
    unfold calculate_project_stats at hrow
    dsimp only at hrow
    have hrow2 := (List.mergeSort_perm _ _).mem_iff.mp hrow
    unfold valuesOf at hrow2
    obtain ⟨kv2, hkv2, rfl⟩ := List.mem_map.mp hrow2
    obtain ⟨kv, hkv, rfl⟩ := List.mem_map.mp hkv2
    have hP := assoc_fold_all
      (fun s : ProjectStats => s.total_tokens = s.input_tokens + s.output_tokens +
        s.cache_read_tokens + s.cache_creation_tokens)
      _ _ _ (fun e v => by simp [add_entry_project]) entries [] (by simp) kv hkv
    simpa using hP
  · intro row hrow
    unfold calculate_session_stats at hrow
    dsimp only at hrow
    have hrow2 := (List.mergeSort_perm _ _).mem_iff.mp hrow
    unfold valuesOf at hrow2
    obtain ⟨kv, hkv, rfl⟩ := List.mem_map.mp hrow2
    exact assoc_fold_all
      (fun s : SessionStats => s.total_tokens = s.input_tokens + s.output_tokens +
        s.cache_read_tokens + s.cache_creation_tokens)
      _ _ _ (fun e v => by simp [add_entry_session]) entries [] (by simp) kv hkv
  · intro row hrow
    unfold calculate_daily_usage at hrow
    dsimp only at hrow
    have hrow2 := (List.mergeSort_perm _ _).mem_iff.mp hrow
    unfold valuesOf at hrow2
    obtain ⟨kv, hkv, rfl⟩ := List.mem_map.mp hrow2
    exact assoc_fold_all
      (fun s : DailyUsage => s.total_tokens = s.input_tokens + s.output_tokens +
        s.cache_read_tokens + s.cache_creation_tokens)
      _ _ _ (fun e v => by simp [add_entry_daily]) entries [] (by simp) kv hkv
  · intro row hrow
    unfold calculate_model_stats at hrow
    dsimp only at hrow
    have hrow2 := (List.mergeSort_perm _ _).mem_iff.mp hrow
    unfold valuesOf at hrow2
    obtain ⟨kv, hkv, rfl⟩ := List.mem_map.mp hrow2
    exact assoc_fold_all
      (fun s : ModelStats => s.total_tokens = s.input_tokens + s.output_tokens)
      _ _ _ (fun e v => by simp [add_entry_model]) entries [] (by simp) kv hkv

/-- Witness for C9: the single `ModelStats` row of a concrete singleton
record list satisfies the input-plus-output rule. -/
theorem C9_total_tokens_witness :
    (add_entry_model entry_keyed1 (init_model_stat entry_keyed1)) ∈
      calculate_model_stats [entry_keyed1] ∧
    (add_entry_model entry_keyed1 (init_model_stat entry_keyed1)).total_tokens =
      (add_entry_model entry_keyed1 (init_model_stat entry_keyed1)).input_tokens +
      (add_entry_model entry_keyed1 (init_model_stat entry_keyed1)).output_tokens := by
  have hcalc : calculate_model_stats [entry_keyed1] =
      [add_entry_model entry_keyed1 (init_model_stat entry_keyed1)] := by
    simp [calculate_model_stats, valuesOf, updateAssoc, List.mergeSort_singleton]
  have hmem : (add_entry_model entry_keyed1 (init_model_stat entry_keyed1)) ∈
      calculate_model_stats [entry_keyed1] := by
    rw [hcalc]; exact List.mem_singleton.mpr rfl
  exact ⟨hmem, (C9_total_tokens [entry_keyed1]).2.2.2 _ hmem⟩

/-- C8 counterexample: on a single record with an absent `project_path` and
session `"s1"`, the produced row is keyed `"Unknown Project"` but reports
`session_count = 0`, while the number of distinct sessions among records
whose **resolved** project path equals that key is 1: the second counting
pass compares the raw optional field, so absent-path records are never
counted into any row. -/
theorem C8_counterexample :
    (calculate_project_stats [entry_no_path]).map
      (fun r => (r.project_path, r.session_count)) = [("Unknown Project", 0)] ∧
    resolved_session_count [entry_no_path] "Unknown Project" = 1 := by
  constructor
  · simp only [calculate_project_stats, List.foldl_cons, List.foldl_nil,
      updateAssoc, valuesOf, List.map_cons, List.map_nil, List.mergeSort_singleton]
    decide
  · decide

/-- C8 (amended): each `ProjectStats` row's `session_count` equals the
number of distinct `session_id` values among records whose **literal**
`project_path` field equals the row's key; this coincides with the claim's
resolved-path rule whenever every record carries a present `project_path`
(records with an absent path, resolved to the row key `"Unknown Project"`,
are not counted into any row's `session_count`). -/
theorem C8_session_count (entries : List UsageEntry) :
    (∀ row ∈ calculate_project_stats entries,
      row.session_count = literal_session_count entries row.project_path) ∧
    ((∀ e ∈ entries, e.project_path ≠ none) →
      ∀ row ∈ calculate_project_stats entries,
        row.session_count = resolved_session_count entries row.project_path) := by
  have hpart1 : ∀ row ∈ calculate_project_stats entries,
      row.session_count = literal_session_count entries row.project_path := by
    intro row hrow
    unfold calculate_project_stats at hrow
    dsimp only at hrow
    have hrow2 := (List.mergeSort_perm _ _).mem_iff.mp hrow
    unfold valuesOf at hrow2
    obtain ⟨kv2, hkv2, rfl⟩ := List.mem_map.mp hrow2
    obtain ⟨kv, hkv, rfl⟩ := List.mem_map.mp hkv2
    rfl
  refine ⟨hpart1, ?_⟩
  intro hall row hrow
  rw [hpart1 row hrow]
  unfold literal_session_count resolved_session_count
  rw [List.filter_congr (fun e he => ?_)]
  cases hq : e.project_path with
  | none => exact absurd hq (hall e he)
  | some q => simp [resolved_project_path, hq]

/-- Witness for C8 (amended): a concrete record list where every record has
a present path, and its single row counted both ways. -/
theorem C8_session_count_witness :
    (∀ e ∈ [entry_with_path], e.project_path ≠ none) ∧
    (calculate_project_stats [entry_with_path]).map
      (fun r => (r.project_path, r.session_count)) = [("/a/b", 1)] ∧
    resolved_session_count [entry_with_path] "/a/b" = 1 := by
  have hall : ∀ e ∈ [entry_with_path], e.project_path ≠ none := by
    simp [entry_with_path]
  refine ⟨hall, ?_, by decide⟩
  have hres := (C8_session_count [entry_with_path]).2 hall
  simp only [calculate_project_stats, List.foldl_cons, List.foldl_nil,
    updateAssoc, valuesOf, List.map_cons, List.map_nil, List.mergeSort_singleton]
  decide

/-- C6 counterexample: a file whose only line has nonzero usage but no
dedup ids is kept again by a second pass in the same load run — the global
set cannot suppress a record that never had a composite key — so processing
the file twice yields two kept records, not one. -/
theorem C6_counterexample :
    (process_file [jline_keyless] none []).1.length = 1 ∧
    (process_file [jline_keyless] none
      ((process_file [jline_keyless] none []).2)).1.length = 1 ∧
    (process_file [jline_keyless] none []).1.length +
      (process_file [jline_keyless] none
        ((process_file [jline_keyless] none []).2)).1.length ≠
      (process_file [jline_keyless] none []).1.length :=
  ⟨rfl, rfl, by decide⟩

/-- C6 (amended): file-level deduplication is idempotent **provided every
line of the file that could produce a kept record carries both dedup ids**:
under that proviso a second pass over the file within one load run (the
global set persisting) keeps nothing, so the total kept-record count of two
passes equals that of one. -/
theorem C6_idempotent (file : List Json) (sid : Option String) (g : List String)
    (hkeys : ∀ j ∈ file, keyless_kept j = false) :
    (process_file file sid ((process_file file sid g).2)).1 = [] ∧
    (process_file file sid g).1.length +
      (process_file file sid ((process_file file sid g).2)).1.length =
      (process_file file sid g).1.length := by
  have hempty : (process_file file sid ((process_file file sid g).2)).1 = [] := by
    unfold process_file
    dsimp only
    apply process_fold_suppressed
    intro j hj
    refine ⟨hkeys j hj, ?_⟩
    intro u k hu hk
    exact (process_fold_inv sid file [] [] g (by simp)).2.2 j hj u k hu hk
  exact ⟨hempty, by rw [hempty]; simp⟩

/-- Witness for C6 (amended): a concrete one-line keyed file is fully
suppressed on its second pass. -/
theorem C6_idempotent_witness :
    (∀ j ∈ [jline_keyed1], keyless_kept j = false) ∧
    (process_file [jline_keyed1] none
      ((process_file [jline_keyed1] none []).2)).1 = [] ∧
    (process_file [jline_keyed1] none []).1.length +
      (process_file [jline_keyed1] none
        ((process_file [jline_keyed1] none []).2)).1.length =
      (process_file [jline_keyed1] none []).1.length := by
  have hkeys : ∀ j ∈ [jline_keyed1], keyless_kept j = false := by
    intro j hj
    simp only [List.mem_singleton] at hj
    subst hj
    decide
  obtain ⟨h1, h2⟩ := C6_idempotent [jline_keyed1] none [] hkeys
  exact ⟨hkeys, h1, h2⟩
